import Mathlib

/-!
# Verification of the GA_VA multi-dialect TTS core

A shallow embedding of the model-lifecycle and generation-orchestration
layer of the GA_VA repository (`backend/services/model_loader.py`,
`backend/services/tts_service.py`, and the relevant request handlers of
`backend/api/main.py`), together with theorems settling the spec's claims
about it.

Modelling conventions:
* The filesystem is a list of existing path strings; `p ∈ fs` embeds
  `Path.exists()`.
* Stateful Python objects become explicit state passing
  (`LoaderState` for the `ModelLoader` singleton).
* Each operation additionally returns the list of paths whose existence
  it checked, so "touches the filesystem" is the trace being nonempty.
* Exceptions become `Except` errors.
* Audio samples are exact rationals; float division by zero (which yields
  NaN/Inf on real hardware) is embedded as `Option ℚ` with `none` for the
  undefined result.
-/

namespace GAVA

/-- The process-wide compute device chosen at startup
(`ModelLoader._device`).  The probe order (MPS, then CUDA, then CPU) is
hardware-dependent and irrelevant to the claims; we fix the CPU fallback. -/
def deviceStr : String := "cpu"

/-- A loaded, inference-ready model (the value returned by
`ChatterboxMultilingualTTS.from_local` and cached by the loader).
`loadId` is a fresh number per instantiation, modelling Python object
identity so that reference equality is expressible. -/
structure ModelHandle where
  dialectDir : String
  device : String
  sr : Nat
  vocabSize : Nat
  loadId : Nat
deriving DecidableEq, Repr

/-- The mutable state of the `ModelLoader` singleton: the `_models` cache,
the current `text_tokens_dict_size` that `T3Config.multilingual` would
report (monkey-patched by `load_model`), and the fresh-identity counter. -/
structure LoaderState where
  cache : List (String × ModelHandle)
  t3MultilingualVocab : Nat
  nextId : Nat
deriving DecidableEq, Repr

/-- The architecture's compiled-in default vocabulary size
(`2352`, per the comment "Fix vocabulary size mismatch (2352 -> 2454)"). -/
def defaultT3Vocab : Nat := 2352

/-- The fine-tuned models' expanded vocabulary size, the fixed constant the
monkey patch installs (`text_tokens_dict_size=2454`). -/
def fineTunedVocab : Nat := 2454

/-- Process start: empty cache, unpatched architecture config. -/
def initLoaderState : LoaderState :=
  { cache := [], t3MultilingualVocab := defaultT3Vocab, nextId := 0 }

/-- The models root directory (`self.models_dir`). -/
def modelsDir : String := "models"

/-- `self.models_dir / dialect`. -/
def modelPath (dialect : String) : String := modelsDir ++ "/" ++ dialect

/-- The five artifact files whose presence `load_model` checks for
diagnostics (missing ones are warnings, never load failures). -/
def componentFiles (p : String) : List String :=
  [p ++ "/t3_23lang.safetensors", p ++ "/s3gen.pt", p ++ "/ve.pt",
   p ++ "/conds.pt", p ++ "/mtl_tokenizer.json"]

/-- The `FileNotFoundError` message raised when the artifact directory for a
dialect is absent; it embeds the expected path. -/
def notFoundMsg (p : String) : String :=
  "Model not found at " ++ p ++ ". Please download from HuggingFace first."

/-- Modelled from the spec: `ChatterboxMultilingualTTS.from_local` is
external library code (the neural-model boundary of §6,
`instantiate(artifactDir, device) -> ModelHandle`).  It builds its text
transformer from `T3Config.multilingual()`, so the handle's effective
vocabulary size is whatever that (possibly patched) config currently
reports; the sample rate is the library's native one. -/
def fromLocal (cfgVocab : Nat) (dir device : String) (freshId : Nat) : ModelHandle :=
  { dialectDir := dir, device := device, sr := 24000,
    vocabSize := cfgVocab, loadId := freshId }

/-- Errors out of `ModelLoader.load_model`. -/
inductive LoadError where
  | modelNotFound (msg : String)
deriving DecidableEq, Repr

instance {ε α : Type} [DecidableEq ε] [DecidableEq α] :
    DecidableEq (Except ε α) := fun x y =>
  match x, y with
  | .ok a, .ok b =>
    if h : a = b then isTrue (by rw [h])
    else isFalse (fun hc => by cases hc; exact h rfl)
  | .error a, .error b =>
    if h : a = b then isTrue (by rw [h])
    else isFalse (fun hc => by cases hc; exact h rfl)
  | .ok _, .error _ => isFalse (fun hc => by cases hc)
  | .error _, .ok _ => isFalse (fun hc => by cases hc)

/-- `dialect in self._models` / `self._models[dialect]`. -/
def cacheLookup (c : List (String × ModelHandle)) (dialect : String) :
    Option ModelHandle :=
  match c with
  | [] => none
  | (k, m) :: rest => if k = dialect then some m else cacheLookup rest dialect

/-- `ModelLoader.load_model(dialect)`.  Returns the result, the new loader
state, and the list of paths whose existence was checked (the disk I/O
trace).  Mirrors the source: cache hit returns immediately; otherwise the
artifact directory is checked and a missing one raises `FileNotFoundError`;
otherwise the `T3Config.multilingual` monkey patch forces the vocabulary to
2454, the five component files are probed for diagnostics, the model is
instantiated via `from_local` on the process device, cached, and returned. -/
def loadModel (fs : List String) (s : LoaderState) (dialect : String) :
    Except LoadError ModelHandle × LoaderState × List String :=
  match cacheLookup s.cache dialect with
  | some m => (.ok m, s, [])
  | none =>
    let p := modelPath dialect
    if p ∈ fs then
      let s1 : LoaderState := { s with t3MultilingualVocab := fineTunedVocab }
      let m := fromLocal s1.t3MultilingualVocab p deviceStr s1.nextId
      (.ok m,
       { s1 with cache := (dialect, m) :: s1.cache, nextId := s1.nextId + 1 },
       p :: componentFiles p)
    else
      (.error (.modelNotFound (notFoundMsg p)), s, [p])

/-- `ModelLoader.get_model(dialect)`: load if not cached, else return the
cached handle. -/
def getModel (fs : List String) (s : LoaderState) (dialect : String) :
    Except LoadError ModelHandle × LoaderState × List String :=
  match cacheLookup s.cache dialect with
  | none => loadModel fs s dialect
  | some m => (.ok m, s, [])

/-- `ModelLoader.clear_cache()`. -/
def clearCache (s : LoaderState) : LoaderState := { s with cache := [] }

/-! ## MD5 (`hashlib.md5`)

`generate_audio` derives default output filenames from
`hashlib.md5(text.encode()).hexdigest()[:8]`.  We embed MD5 (RFC 1321)
over byte lists, with 32-bit words as `Nat` reduced modulo `2^32`. -/

/-- `2^32 - 1`, the 32-bit mask. -/
def mask32 : Nat := 4294967295

/-- 32-bit left rotation. -/
def rotl32 (x n : Nat) : Nat := ((x <<< n) ||| (x >>> (32 - n))) &&& mask32

/-- The 64 MD5 sine-derived round constants. -/
def md5K : List Nat :=
  [0xd76aa478, 0xe8c7b756, 0x242070db, 0xc1bdceee,
   0xf57c0faf, 0x4787c62a, 0xa8304613, 0xfd469501,
   0x698098d8, 0x8b44f7af, 0xffff5bb1, 0x895cd7be,
   0x6b901122, 0xfd987193, 0xa679438e, 0x49b40821,
   0xf61e2562, 0xc040b340, 0x265e5a51, 0xe9b6c7aa,
   0xd62f105d, 0x02441453, 0xd8a1e681, 0xe7d3fbc8,
   0x21e1cde6, 0xc33707d6, 0xf4d50d87, 0x455a14ed,
   0xa9e3e905, 0xfcefa3f8, 0x676f02d9, 0x8d2a4c8a,
   0xfffa3942, 0x8771f681, 0x6d9d6122, 0xfde5380c,
   0xa4beea44, 0x4bdecfa9, 0xf6bb4b60, 0xbebfbc70,
   0x289b7ec6, 0xeaa127fa, 0xd4ef3085, 0x04881d05,
   0xd9d4d039, 0xe6db99e5, 0x1fa27cf8, 0xc4ac5665,
   0xf4292244, 0x432aff97, 0xab9423a7, 0xfc93a039,
   0x655b59c3, 0x8f0ccc92, 0xffeff47d, 0x85845dd1,
   0x6fa87e4f, 0xfe2ce6e0, 0xa3014314, 0x4e0811a1,
   0xf7537e82, 0xbd3af235, 0x2ad7d2bb, 0xeb86d391]

/-- The 64 per-round left-rotation amounts. -/
def md5S : List Nat :=
  [7, 12, 17, 22, 7, 12, 17, 22, 7, 12, 17, 22, 7, 12, 17, 22,
   5, 9, 14, 20, 5, 9, 14, 20, 5, 9, 14, 20, 5, 9, 14, 20,
   4, 11, 16, 23, 4, 11, 16, 23, 4, 11, 16, 23, 4, 11, 16, 23,
   6, 10, 15, 21, 6, 10, 15, 21, 6, 10, 15, 21, 6, 10, 15, 21]

/-- The MD5 round mixing function, by round group. -/
def md5F (i b c d : Nat) : Nat :=
  if i < 16 then (b &&& c) ||| ((mask32 ^^^ b) &&& d)
  else if i < 32 then (d &&& b) ||| ((mask32 ^^^ d) &&& c)
  else if i < 48 then b ^^^ c ^^^ d
  else c ^^^ (b ||| (mask32 ^^^ d))

/-- The MD5 message-word index schedule. -/
def md5G (i : Nat) : Nat :=
  if i < 16 then i
  else if i < 32 then (5 * i + 1) % 16
  else if i < 48 then (3 * i + 5) % 16
  else (7 * i) % 16

/-- One of the 64 MD5 rounds on the running `(A, B, C, D)` state. -/
def md5Step (M : List Nat) (st : Nat × Nat × Nat × Nat) (i : Nat) :
    Nat × Nat × Nat × Nat :=
  match st with
  | (a, b, c, d) =>
    let f := (md5F i b c d + a + md5K.getD i 0 + M.getD (md5G i) 0) &&& mask32
    (d, (b + rotl32 f (md5S.getD i 0)) &&& mask32, b, c)

/-- Little-endian byte-list to number. -/
def leWord : List Nat → Nat
  | [] => 0
  | b :: rest => b + 256 * leWord rest

/-- Process one 64-byte chunk: decode its sixteen little-endian words, run
the 64 rounds, and add the result into the state modulo `2^32`. -/
def md5Chunk (st : Nat × Nat × Nat × Nat) (chunk : List Nat) :
    Nat × Nat × Nat × Nat :=
  let M := (List.range 16).map (fun j => leWord ((chunk.drop (4 * j)).take 4))
  match st, (List.range 64).foldl (md5Step M) st with
  | (a0, b0, c0, d0), (a, b, c, d) =>
    ((a0 + a) &&& mask32, (b0 + b) &&& mask32,
     (c0 + c) &&& mask32, (d0 + d) &&& mask32)

/-- Split a byte list into 64-byte chunks (`acc` holds the current chunk
reversed; structural so the kernel can evaluate digests). -/
def toChunksAux : List Nat → List Nat → List (List Nat)
  | [], acc => if acc = [] then [] else [acc.reverse]
  | b :: rest, acc =>
    if acc.length = 63 then (b :: acc).reverse :: toChunksAux rest []
    else toChunksAux rest (b :: acc)

/-- Split a byte list into 64-byte chunks. -/
def toChunks (l : List Nat) : List (List Nat) := toChunksAux l []

/-- MD5 padding: append `0x80`, zero-fill to 56 mod 64, then the original
bit length as a 64-bit little-endian number. -/
def md5Pad (msg : List Nat) : List Nat :=
  let ml := msg.length * 8
  let zeros := (119 - msg.length % 64) % 64
  msg ++ [128] ++ List.replicate zeros 0 ++
    (List.range 8).map (fun i => (ml >>> (8 * i)) % 256)

/-- The MD5 initialization vector. -/
def md5Init : Nat × Nat × Nat × Nat :=
  (0x67452301, 0xefcdab89, 0x98badcfe, 0x10325476)

/-- A 32-bit word as four little-endian bytes. -/
def wordLEBytes (w : Nat) : List Nat :=
  [w % 256, (w >>> 8) % 256, (w >>> 16) % 256, (w >>> 24) % 256]

/-- The 16-byte MD5 digest of a byte list. -/
def md5Bytes (msg : List Nat) : List Nat :=
  match (toChunks (md5Pad msg)).foldl md5Chunk md5Init with
  | (a, b, c, d) => wordLEBytes a ++ wordLEBytes b ++ wordLEBytes c ++ wordLEBytes d

/-- Lowercase hex digit. -/
def hexDigitChar (n : Nat) : Char :=
  if n < 10 then Char.ofNat (48 + n) else Char.ofNat (87 + n)

/-- A byte as two lowercase hex characters. -/
def byteHexChars (b : Nat) : List Char := [hexDigitChar (b / 16), hexDigitChar (b % 16)]

/-- `hashlib.md5(bytes).hexdigest()`: the 32-character lowercase hex digest. -/
def md5HexDigest (msg : List Nat) : String :=
  String.mk ((md5Bytes msg).map byteHexChars).flatten

/-- UTF-8 encoding of one Unicode code point. -/
def utf8CharBytes (n : Nat) : List Nat :=
  if n < 0x80 then [n]
  else if n < 0x800 then [0xc0 ||| (n >>> 6), 0x80 ||| (n % 64)]
  else if n < 0x10000 then
    [0xe0 ||| (n >>> 12), 0x80 ||| ((n >>> 6) % 64), 0x80 ||| (n % 64)]
  else
    [0xf0 ||| (n >>> 18), 0x80 ||| ((n >>> 12) % 64),
     0x80 ||| ((n >>> 6) % 64), 0x80 ||| (n % 64)]

/-- `text.encode()`: UTF-8 bytes of a string. -/
def utf8Encode (s : String) : List Nat :=
  (s.toList.map (fun c => utf8CharBytes c.toNat)).flatten

/-! ## TTS service (`tts_service.py`) -/

/-- Python `str.split()` with no separator: the maximal runs of
non-whitespace characters, with leading, trailing and repeated whitespace
discarded (`acc` holds the current run reversed).  Whitespace is
`Char.isWhitespace`. -/
def pySplitAux : List Char → List Char → List (List Char)
  | [], acc => if acc = [] then [] else [acc.reverse]
  | c :: rest, acc =>
    if c.isWhitespace then
      if acc = [] then pySplitAux rest []
      else acc.reverse :: pySplitAux rest []
    else pySplitAux rest (c :: acc)

/-- `text.split()`. -/
def pySplit (l : List Char) : List (List Char) := pySplitAux l []

/-- `TTSService.preprocess_text`: `" ".join(text.split())`, the only text
transformation the service performs. -/
def preprocess_text (text : String) : String :=
  String.mk (List.intercalate [' '] (pySplit text.toList))

/-- Modelled from the spec ("collapse internal whitespace runs to single
spaces and trim; this is the only text transformation performed"), step 1:
every whitespace character becomes a plain space; all other characters are
untouched. -/
def wsToSpace (l : List Char) : List Char :=
  l.map (fun c => if c.isWhitespace then ' ' else c)

/-- Spec step 2: collapse each run of adjacent spaces to a single space. -/
def squeezeSpaces : List Char → List Char
  | [] => []
  | [c] => [c]
  | a :: b :: rest =>
    if a = ' ' ∧ b = ' ' then squeezeSpaces (b :: rest)
    else a :: squeezeSpaces (b :: rest)

/-- Spec step 3a: trim leading spaces. -/
def dropLeadingSpaces (l : List Char) : List Char :=
  l.dropWhile (fun c => c == ' ')

/-- Spec step 3b: trim trailing spaces. -/
def dropTrailingSpaces (l : List Char) : List Char :=
  (l.reverse.dropWhile (fun c => c == ' ')).reverse

/-- Spec step 3: trim leading and trailing whitespace. -/
def trimSpaces (l : List Char) : List Char :=
  dropTrailingSpaces (dropLeadingSpaces l)

/-- Modelled from the spec: the Orchestrator's text normalization exactly
as the spec words it — collapse every internal whitespace run to a single
space, trim leading/trailing whitespace, and change nothing else. -/
def specNormalize (text : String) : String :=
  String.mk (trimSpaces (squeezeSpaces (wsToSpace text.toList)))

/-- `torch.abs` on one rational sample (computably, so that concrete
waveforms evaluate). -/
def ratAbs (x : ℚ) : ℚ := if x < 0 then -x else x

/-- Binary `torch.max` on rationals (computably). -/
def ratMax (a b : ℚ) : ℚ := if a ≤ b then b else a

/-- `torch.max(torch.abs(audio))`: the largest absolute sample value
(`0` for an empty waveform). -/
def maxAbs (l : List ℚ) : ℚ := l.foldr (fun x m => ratMax (ratAbs x) m) 0

/-- Float-style division: division by zero has no rational value; `none`
models the NaN/Inf a floating-point backend produces there. -/
def fdiv (x m : ℚ) : Option ℚ := if m = 0 then none else some (x / m)

/-- The normalization step of `TTSService._save_audio`:
`audio = audio / torch.max(torch.abs(audio))`.  The preceding 1D→2D
`unsqueeze` does not change sample values and is omitted; the waveform is
the flat list of samples. -/
def saveNormalize (l : List ℚ) : List (Option ℚ) :=
  l.map (fun x => fdiv x (maxAbs l))

/-- The record of one `model.generate(processed_text, **gen_kwargs)`
invocation as assembled by `generate_audio`. -/
structure GenCall where
  text : String
  languageId : String
  temperature : ℚ
  repetitionPenalty : ℚ
  topP : ℚ
  minP : ℚ
  cfgWeight : ℚ
  audioPromptPath : Option String
deriving DecidableEq, Repr

/-- Errors out of `TTSService.generate_audio`. -/
inductive TTSError where
  | invalidDialect (msg : String)
  | loadError (e : LoadError)
deriving DecidableEq, Repr

/-- `valid_dialects = ['egyptian', 'emirates', 'ksa', 'kuwaiti']`. -/
def validDialects : List String := ["egyptian", "emirates", "ksa", "kuwaiti"]

/-- The `ValueError` message for a dialect outside the closed set. -/
def invalidDialectMsg : String :=
  "Invalid dialect. Must be one of: ['egyptian', 'emirates', 'ksa', 'kuwaiti']"

/-- `self.output_dir` (`generated_audio`). -/
def outputDirStr : String := "generated_audio"

/-- The derived default output path:
`self.output_dir / f"{dialect}_{text_hash}.wav"` with
`text_hash = hashlib.md5(text.encode()).hexdigest()[:8]` computed from the
original (un-normalized) input text. -/
def defaultOutputPath (text dialect : String) : String :=
  outputDirStr ++ "/" ++ dialect ++ "_" ++
    (md5HexDigest (utf8Encode text)).take 8 ++ ".wav"

/-- What a successful `generate_audio` produced: the generation call it
made, the output path it saved to, and the normalized waveform written. -/
structure GenResult where
  genCall : GenCall
  outputPath : String
  savedWav : List (Option ℚ)
deriving DecidableEq, Repr

/-- `TTSService.generate_audio`.  `gen` is the black-box neural model
(`model.generate`), a function from the assembled call to a waveform.
Returns the result, the loader state after any model load, and the list of
paths whose existence was checked.  Mirrors the source: validate the
dialect against the closed set (raising `ValueError` otherwise, before any
filesystem or cache access); preprocess the text; fetch the model through
the loader (propagating its failure); drop a supplied reference-audio path
that does not exist; invoke generation with `language_id="ar"` and the five
sampling parameters verbatim; derive the default output path from the MD5
of the original text and the dialect when no explicit path is given; and
peak-normalize the waveform for saving. -/
def generate_audio (gen : GenCall → List ℚ) (fs : List String) (s : LoaderState)
    (text dialect : String)
    (temperature repetitionPenalty topP minP cfgWeight : ℚ)
    (referenceAudioPath : Option String) (outputPath : Option String) :
    Except TTSError GenResult × LoaderState × List String :=
  if dialect ∈ validDialects then
    let processedText := preprocess_text text
    match getModel fs s dialect with
    | (.ok _m, s1, tr) =>
      let refChecked : Option String × List String :=
        match referenceAudioPath with
        | some rp => (if rp ∈ fs then some rp else none, [rp])
        | none => (none, [])
      let call : GenCall :=
        { text := processedText, languageId := "ar",
          temperature := temperature, repetitionPenalty := repetitionPenalty,
          topP := topP, minP := minP, cfgWeight := cfgWeight,
          audioPromptPath := refChecked.1 }
      let wav := gen call
      let path :=
        match outputPath with
        | some pth => pth
        | none => defaultOutputPath text dialect
      (.ok { genCall := call, outputPath := path, savedWav := saveNormalize wav },
       s1, tr ++ refChecked.2)
    | (.error e, s1, tr) => (.error (.loadError e), s1, tr)
  else
    (.error (.invalidDialect invalidDialectMsg), s, [])

/-! ## API request handlers (`api/main.py`) -/

/-- One entry of the training-samples metadata catalog
(`training_samples/metadata.json`). -/
structure SampleInfo where
  id : String
  text : String
  filename : String
deriving DecidableEq, Repr

/-- `TRAINING_SAMPLES_DIR`. -/
def trainingSamplesDir : String := "training_samples"

/-- `TEMP_REFERENCE_DIR`. -/
def tempRefDir : String := "temp_reference_audio"

/-- Errors surfaced by the request handlers. -/
inductive ApiError where
  | notFound (msg : String)
  | tts (e : TTSError)
deriving DecidableEq, Repr

/-- Metadata lookup by dialect key. -/
def lookupMeta (meta : List (String × List SampleInfo)) (dialect : String) :
    Option (List SampleInfo) :=
  match meta with
  | [] => none
  | (k, v) :: rest => if k = dialect then some v else lookupMeta rest dialect

/-- The `/api/compare` handler `compare_with_sample`: find the sample in
the metadata (404 otherwise); when `use_sample_as_reference` is set, point
the reference-audio path at the sample's file **without checking that it
exists**; then call `generate_audio` on the sample's text. -/
def compareWithSample (gen : GenCall → List ℚ) (fs : List String)
    (s : LoaderState) (metadata : List (String × List SampleInfo))
    (dialect sampleId : String)
    (temperature repetitionPenalty topP minP cfgWeight : ℚ)
    (useSampleAsReference : Bool) :
    Except ApiError GenResult × LoaderState × List String :=
  match lookupMeta metadata dialect with
  | none => (.error (.notFound ("Dialect '" ++ dialect ++ "' not found")), s, [])
  | some samples =>
    match samples.find? (fun sm => sm.id == sampleId) with
    | none => (.error (.notFound ("Sample '" ++ sampleId ++ "' not found")), s, [])
    | some sample =>
      let refPath : Option String :=
        if useSampleAsReference then
          some (trainingSamplesDir ++ "/" ++ dialect ++ "/" ++ sample.filename)
        else none
      match generate_audio gen fs s sample.text dialect temperature
          repetitionPenalty topP minP cfgWeight refPath none with
      | (.ok r, s1, tr) => (.ok r, s1, tr)
      | (.error e, s1, tr) => (.error (.tts e), s1, tr)

/-- The `/api/generate` handler `generate_tts`: resolve an uploaded
reference-audio filename against the temporary-uploads directory; if the
file is missing, log a warning and proceed with no reference (soft-fail);
then call `generate_audio`. -/
def generateTTS (gen : GenCall → List ℚ) (fs : List String) (s : LoaderState)
    (text dialect : String)
    (temperature repetitionPenalty topP minP cfgWeight : ℚ)
    (referenceAudioFile : Option String) :
    Except ApiError GenResult × LoaderState × List String :=
  let refChecked : Option String × List String :=
    match referenceAudioFile with
    | some f =>
      let pth := tempRefDir ++ "/" ++ f
      (if pth ∈ fs then some pth else none, [pth])
    | none => (none, [])
  match generate_audio gen fs s text dialect temperature repetitionPenalty
      topP minP cfgWeight refChecked.1 none with
  | (.ok r, s1, tr) => (.ok r, s1, refChecked.2 ++ tr)
  | (.error e, s1, tr) => (.error (.tts e), s1, refChecked.2 ++ tr)

/-- The handle a fresh (uncached) successful load of `dialect` from state
`s` instantiates. -/
def loadedHandle (s : LoaderState) (dialect : String) : ModelHandle :=
  fromLocal fineTunedVocab (modelPath dialect) deviceStr s.nextId

/-- The loader state after a fresh successful load of `dialect`. -/
def loadedState (s : LoaderState) (dialect : String) : LoaderState :=
  { cache := (dialect, loadedHandle s dialect) :: s.cache,
    t3MultilingualVocab := fineTunedVocab, nextId := s.nextId + 1 }

/-! ## Concrete scenarios used by witnesses and counterexamples -/

/-- A concrete `/api/compare` run: Egyptian model artifacts present; the
catalog lists `sample1` with file `s1.wav`, but
`training_samples/egyptian/s1.wav` is absent from the filesystem; the
caller explicitly sets `use_sample_as_reference`. -/
def missingSampleRun : Except ApiError GenResult × LoaderState × List String :=
  compareWithSample (fun _ => [1]) ["models/egyptian"] initLoaderState
    [("egyptian", [{ id := "sample1", text := "اهلا", filename := "s1.wav" }])]
    "egyptian" "sample1" 1 2 1 1 1 true

/-- First concrete filename-determinism run: fresh load of the Emirates
model, input text `"hi"`, no explicit output path. -/
def c9RunA : Except TTSError GenResult × LoaderState × List String :=
  generate_audio (fun _ => []) ["models/emirates"] initLoaderState "hi"
    "emirates" 1 2 1 1 1 none none

/-- Second concrete filename-determinism run: same text and dialect, warm
cache, a different model oracle and different sampling parameters. -/
def c9RunB : Except TTSError GenResult × LoaderState × List String :=
  generate_audio (fun _ => []) ["models/emirates"]
    (loadedState initLoaderState "emirates") "hi" "emirates" 3 4 5 6 7
    none none

/-- The result record of `c9RunA`. -/
def c9ResA : GenResult :=
  { genCall :=
      { text := "hi", languageId := "ar", temperature := 1,
        repetitionPenalty := 2, topP := 1, minP := 1, cfgWeight := 1,
        audioPromptPath := none },
    outputPath := "generated_audio/emirates_49f68a5c.wav",
    savedWav := [] }

/-- The result record of `c9RunB`. -/
def c9ResB : GenResult :=
  { genCall :=
      { text := "hi", languageId := "ar", temperature := 3,
        repetitionPenalty := 4, topP := 5, minP := 6, cfgWeight := 7,
        audioPromptPath := none },
    outputPath := "generated_audio/emirates_49f68a5c.wav",
    savedWav := [] }

/-! ## Registry theorems -/

/-- A loader state whose every cached handle carries the fine-tuned
vocabulary size. -/
def VocabInv (s : LoaderState) : Prop :=
  ∀ d m, cacheLookup s.cache d = some m → m.vocabSize = fineTunedVocab

/-- Cache hit: `load_model` returns the cached handle, touches nothing. -/
theorem loadModel_cached (fs : List String) (s : LoaderState) (dialect : String)
    (m : ModelHandle) (h : cacheLookup s.cache dialect = some m) :
    loadModel fs s dialect = (.ok m, s, []) := by
  unfold loadModel
  rw [h]

/-- Cache miss with the artifact directory present: `load_model` patches the
config, instantiates, caches, and returns the fresh handle. -/
theorem loadModel_fresh (fs : List String) (s : LoaderState) (dialect : String)
    (hc : cacheLookup s.cache dialect = none) (hp : modelPath dialect ∈ fs) :
    loadModel fs s dialect =
      (.ok (loadedHandle s dialect), loadedState s dialect,
       modelPath dialect :: componentFiles (modelPath dialect)) := by
  unfold loadModel
  rw [hc]
  simp only [hp, if_true]
  rfl

/-- Cache miss with the artifact directory absent: `load_model` raises
`FileNotFoundError` after the single existence check, leaving the state
untouched. -/
theorem loadModel_missing (fs : List String) (s : LoaderState) (dialect : String)
    (hc : cacheLookup s.cache dialect = none) (hp : modelPath dialect ∉ fs) :
    loadModel fs s dialect =
      (.error (.modelNotFound (notFoundMsg (modelPath dialect))), s,
       [modelPath dialect]) := by
  unfold loadModel
  rw [hc]
  simp only [hp, if_false]

/-- C1.  For every dialect model loaded by the Registry, the architecture's
vocabulary-size parameter is overridden to the fixed fine-tuned constant
2454 before the model is instantiated: starting from process start (empty
cache, unpatched config — which trivially satisfies the cache invariant),
every handle `load_model` ever returns has effective vocabulary size 2454,
never the architecture's uncustomized default 2352, regardless of dialect,
and the invariant is preserved, so it holds of every reachable cache. -/
theorem registry_vocab_override_2454 :
    VocabInv initLoaderState ∧
    ∀ fs s dialect m s1 tr, VocabInv s →
      loadModel fs s dialect = (.ok m, s1, tr) →
      m.vocabSize = fineTunedVocab ∧ m.vocabSize ≠ defaultT3Vocab ∧ VocabInv s1 := by
  refine ⟨fun d m h => by simp [initLoaderState, cacheLookup] at h, ?_⟩
  intro fs s dialect m s1 tr hinv h
  cases hc : cacheLookup s.cache dialect with
  | some m0 =>
    rw [loadModel_cached fs s dialect m0 hc] at h
    simp only [Prod.mk.injEq, Except.ok.injEq] at h
    obtain ⟨hm, hs, -⟩ := h
    subst hm
    subst hs
    refine ⟨hinv dialect m0 hc, ?_, hinv⟩
    rw [hinv dialect m0 hc]
    decide
  | none =>
    by_cases hp : modelPath dialect ∈ fs
    · rw [loadModel_fresh fs s dialect hc hp] at h
      simp only [Prod.mk.injEq, Except.ok.injEq] at h
      obtain ⟨hm, hs, -⟩ := h
      subst hm
      subst hs
      refine ⟨rfl, ?_, ?_⟩
      · show fineTunedVocab ≠ defaultT3Vocab
        decide
      intro d m' hl
      simp only [loadedState, cacheLookup] at hl
      by_cases hd : dialect = d
      · rw [if_pos hd] at hl
        cases hl
        rfl
      · rw [if_neg hd] at hl
        exact hinv d m' hl
    · rw [loadModel_missing fs s dialect hc hp] at h
      exact absurd h (by simp)

/-- Witness for C1: the concrete first-time load of the Egyptian model from
process start produces a handle whose vocabulary size is 2454, not 2352. -/
theorem registry_vocab_override_2454_witness :
    (loadedHandle initLoaderState "egyptian").vocabSize = fineTunedVocab ∧
    (loadedHandle initLoaderState "egyptian").vocabSize ≠ defaultT3Vocab :=
  let h := registry_vocab_override_2454.2 ["models/egyptian"] initLoaderState
    "egyptian" (loadedHandle initLoaderState "egyptian")
    (loadedState initLoaderState "egyptian")
    (modelPath "egyptian" :: componentFiles (modelPath "egyptian"))
    registry_vocab_override_2454.1 (by decide)
  ⟨h.1, h.2.1⟩

/-- C4.  For every dialect already present in the cache, `load_model` and
`get_model` both return the identical cached `ModelHandle` instance
(reference equality: the very value stored, fresh-identity counter
included), leave the loader state — hence the cache — unchanged, and check
no path on disk (empty I/O trace). -/
theorem cached_resolve_identity (fs : List String) (s : LoaderState)
    (dialect : String) (m : ModelHandle)
    (h : cacheLookup s.cache dialect = some m) :
    loadModel fs s dialect = (.ok m, s, []) ∧
    getModel fs s dialect = (.ok m, s, []) := by
  refine ⟨loadModel_cached fs s dialect m h, ?_⟩
  unfold getModel
  rw [h]

/-- Witness for C4: with the KSA model cached, both resolve operations
return that very handle with no state change and no disk I/O, even against
an empty filesystem. -/
theorem cached_resolve_identity_witness :
    loadModel [] (loadedState initLoaderState "ksa") "ksa" =
      (.ok (loadedHandle initLoaderState "ksa"),
       loadedState initLoaderState "ksa", []) ∧
    getModel [] (loadedState initLoaderState "ksa") "ksa" =
      (.ok (loadedHandle initLoaderState "ksa"),
       loadedState initLoaderState "ksa", []) :=
  cached_resolve_identity [] (loadedState initLoaderState "ksa") "ksa"
    (loadedHandle initLoaderState "ksa") (by decide)

/-- C5.  For an uncached dialect whose artifact directory is absent,
`load_model` fails with `FileNotFoundError` whose message names the
expected path, checks exactly that path, and returns the state unchanged,
so the cache still has no entry for the dialect (no negative caching); a
retry against a filesystem that now has the artifacts succeeds. -/
theorem absent_artifacts_model_not_found (fs : List String) (s : LoaderState)
    (dialect : String) (hc : cacheLookup s.cache dialect = none)
    (hp : modelPath dialect ∉ fs) :
    loadModel fs s dialect =
      (.error (.modelNotFound (notFoundMsg (modelPath dialect))), s,
       [modelPath dialect]) ∧
    notFoundMsg (modelPath dialect) =
      "Model not found at " ++ modelPath dialect ++
        ". Please download from HuggingFace first." ∧
    cacheLookup (loadModel fs s dialect).2.1.cache dialect = none ∧
    ∀ fs2, modelPath dialect ∈ fs2 →
      loadModel fs2 s dialect =
        (.ok (loadedHandle s dialect), loadedState s dialect,
         modelPath dialect :: componentFiles (modelPath dialect)) := by
  refine ⟨loadModel_missing fs s dialect hc hp, rfl, ?_,
    fun fs2 hp2 => loadModel_fresh fs2 s dialect hc hp2⟩
  rw [loadModel_missing fs s dialect hc hp]
  exact hc

/-- Witness for C5: from process start with no artifacts on disk, loading
`kuwaiti` fails naming `models/kuwaiti` and leaves the state untouched;
after provisioning `models/kuwaiti`, the retry from that same state
succeeds. -/
theorem absent_artifacts_model_not_found_witness :
    loadModel [] initLoaderState "kuwaiti" =
      (.error (.modelNotFound (notFoundMsg (modelPath "kuwaiti"))),
       initLoaderState, [modelPath "kuwaiti"]) ∧
    loadModel ["models/kuwaiti"] initLoaderState "kuwaiti" =
      (.ok (loadedHandle initLoaderState "kuwaiti"),
       loadedState initLoaderState "kuwaiti",
       modelPath "kuwaiti" :: componentFiles (modelPath "kuwaiti")) :=
  let h := absent_artifacts_model_not_found [] initLoaderState "kuwaiti"
    (by decide) (by decide)
  ⟨h.1, h.2.2.2 ["models/kuwaiti"] (by decide)⟩

/-- C2 counterexample: resolving the out-of-set dialect `"french"` through
the Registry does **not** fail with an invalid-dialect error and **does**
touch the filesystem.  `load_model` has no closed-set check: it probes
`models/french` on disk (the I/O trace contains that path, so it is
nonempty) and raises `FileNotFoundError`/`ModelNotFound` instead — refuting
the claim that the Registry's resolve fails with `InvalidDialect` without
touching the filesystem. -/
theorem invalid_dialect_registry_counterexample :
    loadModel [] initLoaderState "french" =
      (.error (.modelNotFound (notFoundMsg "models/french")), initLoaderState,
       ["models/french"]) ∧
    "models/french" ∈ (loadModel [] initLoaderState "french").2.2 := by
  decide

/-- C2 amended: dialect validation lives in the Orchestrator only.  For any
dialect outside the closed set, `generate_audio` fails with the
`InvalidDialect` `ValueError` before touching the filesystem (empty check
trace) or the loader state/cache.  The Registry's `load_model` performs no
closed-set validation: for an uncached dialect whose artifact directory is
absent (the case for out-of-set dialects on a correctly provisioned
system), it checks that path on disk and fails with `ModelNotFound`, still
modifying neither the state nor the cache. -/
theorem invalid_dialect_validation_amended :
    (∀ gen fs s text dialect t rp tp mp cw ref out,
      dialect ∉ validDialects →
      generate_audio gen fs s text dialect t rp tp mp cw ref out =
        (.error (.invalidDialect invalidDialectMsg), s, [])) ∧
    (∀ fs s dialect, cacheLookup s.cache dialect = none →
      modelPath dialect ∉ fs →
      loadModel fs s dialect =
        (.error (.modelNotFound (notFoundMsg (modelPath dialect))), s,
         [modelPath dialect])) := by
  constructor
  · intro gen fs s text dialect t rp tp mp cw ref out hd
    unfold generate_audio
    rw [if_neg hd]
  · intro fs s dialect hc hp
    exact loadModel_missing fs s dialect hc hp

/-- Witness for the amended C2, at the out-of-set dialects `"french"` and
`"german"`. -/
theorem invalid_dialect_validation_amended_witness :
    generate_audio (fun _ => []) [] initLoaderState "hello" "french"
        1 2 1 1 1 none none =
      (.error (.invalidDialect invalidDialectMsg), initLoaderState, []) ∧
    loadModel [] initLoaderState "german" =
      (.error (.modelNotFound (notFoundMsg (modelPath "german"))),
       initLoaderState, [modelPath "german"]) :=
  ⟨invalid_dialect_validation_amended.1 (fun _ => []) [] initLoaderState
      "hello" "french" 1 2 1 1 1 none none (by decide),
   invalid_dialect_validation_amended.2 [] initLoaderState "german"
      (by decide) (by decide)⟩

/-! ## Orchestrator theorems -/

/-- Unfolding of a `generate_audio` run whose dialect is valid and whose
model fetch succeeds. -/
theorem generate_audio_ok (gen : GenCall → List ℚ) (fs : List String)
    (s : LoaderState) (text dialect : String) (t rp tp mp cw : ℚ)
    (ref out : Option String) (m : ModelHandle) (s1 : LoaderState)
    (tr : List String) (hd : dialect ∈ validDialects)
    (hm : getModel fs s dialect = (.ok m, s1, tr)) :
    generate_audio gen fs s text dialect t rp tp mp cw ref out =
      (let refChecked : Option String × List String :=
        match ref with
        | some rp2 => (if rp2 ∈ fs then some rp2 else none, [rp2])
        | none => (none, [])
      let call : GenCall :=
        { text := preprocess_text text, languageId := "ar",
          temperature := t, repetitionPenalty := rp, topP := tp, minP := mp,
          cfgWeight := cw, audioPromptPath := refChecked.1 }
      (.ok { genCall := call,
             outputPath :=
               match out with
               | some pth => pth
               | none => defaultOutputPath text dialect,
             savedWav := saveNormalize (gen call) }, s1, tr ++ refChecked.2)) := by
  unfold generate_audio
  rw [if_pos hd, hm]

/-- C3 counterexample: in the concrete `missingSampleRun` scenario — the
caller explicitly requested "use sample as reference" and the referenced
sample audio file is missing from the filesystem — `synthesize` does
**not** fail: the request succeeds, and the generation call carries no
reference conditioning (the missing path was silently dropped by
`generate_audio`'s existence check).  This refutes the claimed hard
error. -/
theorem missing_sample_reference_counterexample :
    missingSampleRun.1.toOption.map (fun r => r.genCall.audioPromptPath) =
      some none := by
  decide

/-- C3 amended: both reference paths soft-fail when the file is missing.
When the caller explicitly requests "use sample as reference" and the
sample audio file is absent, `compareWithSample` succeeds without
conditioning — exactly like the uploaded-reference path of `generateTTS`
with a missing upload (which additionally logs a warning); neither raises
a hard error. -/
theorem missing_reference_soft_fail_amended :
    (∀ gen fs s metadata dialect sampleId t rp tp mp cw samples sample
        m s1 tr,
      lookupMeta metadata dialect = some samples →
      samples.find? (fun sm => sm.id == sampleId) = some sample →
      dialect ∈ validDialects →
      getModel fs s dialect = (.ok m, s1, tr) →
      (trainingSamplesDir ++ "/" ++ dialect ++ "/" ++ sample.filename) ∉ fs →
      ∃ r, (compareWithSample gen fs s metadata dialect sampleId
              t rp tp mp cw true).1 = .ok r ∧
        r.genCall.audioPromptPath = none) ∧
    (∀ gen fs s text dialect t rp tp mp cw f m s1 tr,
      dialect ∈ validDialects →
      getModel fs s dialect = (.ok m, s1, tr) →
      (tempRefDir ++ "/" ++ f) ∉ fs →
      ∃ r, (generateTTS gen fs s text dialect t rp tp mp cw
              (some f)).1 = .ok r ∧
        r.genCall.audioPromptPath = none) := by
  constructor
  · intro gen fs s metadata dialect sampleId t rp tp mp cw samples sample
      m s1 tr hmeta hfind hd hm href
    simp only [compareWithSample, hmeta, hfind, eq_self_iff_true, if_true]
    rw [generate_audio_ok gen fs s sample.text dialect t rp tp mp cw
      (some (trainingSamplesDir ++ "/" ++ dialect ++ "/" ++ sample.filename))
      none m s1 tr hd hm]
    exact ⟨_, rfl, if_neg href⟩
  · intro gen fs s text dialect t rp tp mp cw f m s1 tr hd hm href
    simp only [generateTTS, if_neg href]
    rw [generate_audio_ok gen fs s text dialect t rp tp mp cw none none
      m s1 tr hd hm]
    exact ⟨_, rfl, rfl⟩

/-- Witness for the amended C3: the concrete `missingSampleRun` scenario
for the sample path, and an uploaded reference `ref.wav` whose temp file is
absent for the uploaded path. -/
theorem missing_reference_soft_fail_amended_witness :
    (∃ r, missingSampleRun.1 = .ok r ∧ r.genCall.audioPromptPath = none) ∧
    (∃ r, (generateTTS (fun _ => [1]) ["models/egyptian"] initLoaderState
        "اهلا" "egyptian" 1 2 1 1 1 (some "ref.wav")).1 = .ok r ∧
      r.genCall.audioPromptPath = none) :=
  ⟨missing_reference_soft_fail_amended.1 (fun _ => [1]) ["models/egyptian"]
      initLoaderState
      [("egyptian", [{ id := "sample1", text := "اهلا", filename := "s1.wav" }])]
      "egyptian" "sample1" 1 2 1 1 1
      [{ id := "sample1", text := "اهلا", filename := "s1.wav" }]
      { id := "sample1", text := "اهلا", filename := "s1.wav" }
      (loadedHandle initLoaderState "egyptian")
      (loadedState initLoaderState "egyptian")
      (modelPath "egyptian" :: componentFiles (modelPath "egyptian"))
      (by decide) (by decide) (by decide) (by decide) (by decide),
   missing_reference_soft_fail_amended.2 (fun _ => [1]) ["models/egyptian"]
      initLoaderState "اهلا" "egyptian" 1 2 1 1 1 "ref.wav"
      (loadedHandle initLoaderState "egyptian")
      (loadedState initLoaderState "egyptian")
      (modelPath "egyptian" :: componentFiles (modelPath "egyptian"))
      (by decide) (by decide) (by decide)⟩

/-- `generate_audio` with no explicit output path derives the
content-addressed default filename. -/
theorem generate_audio_default_path (gen : GenCall → List ℚ)
    (fs : List String) (s : LoaderState) (text dialect : String)
    (t rp tp mp cw : ℚ) (ref : Option String) (r : GenResult)
    (s2 : LoaderState) (tr : List String)
    (h : generate_audio gen fs s text dialect t rp tp mp cw ref none =
      (.ok r, s2, tr)) :
    r.outputPath = defaultOutputPath text dialect := by
  unfold generate_audio at h
  by_cases hd : dialect ∈ validDialects
  · rw [if_pos hd] at h
    rcases hgm : getModel fs s dialect with ⟨res, st, trc⟩
    rw [hgm] at h
    cases res with
    | ok m =>
      simp only [Prod.mk.injEq, Except.ok.injEq] at h
      obtain ⟨hr, -, -⟩ := h
      rw [← hr]
    | error e => simp at h
  · rw [if_neg hd] at h
    simp at h

/-- C9.  Any two `generate_audio` calls with identical input text and
identical dialect and no explicit output path derive the same output
filename — across arbitrary (even different) model oracles, filesystems,
loader states, sampling parameters and reference-audio arguments.  The
name is the deterministic function
`generated_audio/{dialect}_{md5(text.encode()).hexdigest()[:8]}.wav` of a
content hash of the original (un-normalized) input text combined with the
dialect name, with no uniqueness suffix (last-writer-wins). -/
theorem deterministic_output_filename (gen1 gen2 : GenCall → List ℚ)
    (fs1 fs2 : List String) (sA sB : LoaderState) (text dialect : String)
    (t1 rp1 tp1 mp1 cw1 t2 rp2 tp2 mp2 cw2 : ℚ)
    (ref1 ref2 : Option String) (r1 r2 : GenResult) (sA2 sB2 : LoaderState)
    (tr1 tr2 : List String)
    (h1 : generate_audio gen1 fs1 sA text dialect t1 rp1 tp1 mp1 cw1
      ref1 none = (.ok r1, sA2, tr1))
    (h2 : generate_audio gen2 fs2 sB text dialect t2 rp2 tp2 mp2 cw2
      ref2 none = (.ok r2, sB2, tr2)) :
    r1.outputPath = r2.outputPath ∧
    r1.outputPath = outputDirStr ++ "/" ++ dialect ++ "_" ++
      (md5HexDigest (utf8Encode text)).take 8 ++ ".wav" := by
  have e1 := generate_audio_default_path gen1 fs1 sA text dialect
    t1 rp1 tp1 mp1 cw1 ref1 r1 sA2 tr1 h1
  have e2 := generate_audio_default_path gen2 fs2 sB text dialect
    t2 rp2 tp2 mp2 cw2 ref2 r2 sB2 tr2 h2
  rw [e1, e2]
  exact ⟨rfl, rfl⟩

set_option maxRecDepth 1000000 in
/-- Witness for C9: the two concrete runs `c9RunA`/`c9RunB` (same text
`"hi"`, same dialect `"emirates"`, different oracles, states and sampling
parameters) resolve to the same derived filename
`generated_audio/emirates_49f68a5c.wav`. -/
theorem deterministic_output_filename_witness :
    c9ResA.outputPath = c9ResB.outputPath ∧
    c9ResA.outputPath = outputDirStr ++ "/" ++ "emirates" ++ "_" ++
      (md5HexDigest (utf8Encode "hi")).take 8 ++ ".wav" :=
  deterministic_output_filename (fun _ => []) (fun _ => [])
    ["models/emirates"] ["models/emirates"] initLoaderState
    (loadedState initLoaderState "emirates") "hi" "emirates"
    1 2 1 1 1 3 4 5 6 7 none none c9ResA c9ResB
    (loadedState initLoaderState "emirates")
    (loadedState initLoaderState "emirates")
    (modelPath "emirates" :: componentFiles (modelPath "emirates") ++ [])
    ([] ++ [])
    (by decide) (by decide)

/-- `str.split()` of all-whitespace text is empty. -/
theorem pySplitAux_all_ws (l : List Char)
    (h : ∀ c ∈ l, c.isWhitespace) : pySplitAux l [] = [] := by
  induction l with
  | nil => rfl
  | cons c rest ih =>
    have hc : c.isWhitespace = true := h c (List.mem_cons_self c rest)
    simp only [pySplitAux, hc, if_true, if_pos rfl]
    exact ih fun x hx => h x (List.mem_cons_of_mem c hx)

/-- Preprocessing whitespace-only (or empty) text yields the empty
string. -/
theorem preprocess_all_ws (text : String)
    (h : ∀ c ∈ text.toList, c.isWhitespace) : preprocess_text text = "" := by
  unfold preprocess_text pySplit
  rw [pySplitAux_all_ws text.toList h]
  rfl

/-- C10.  `generate_audio` enforces no non-empty-text precondition: for
empty or whitespace-only input text with a valid dialect and a loadable
model it raises no validation error — preprocessing maps such text to the
empty string and the model's generation call is still attempted with it.
(Together with `invalid_dialect_validation_amended`, the only input
validation `generate_audio` itself performs is the dialect check.) -/
theorem empty_text_not_validated (gen : GenCall → List ℚ) (fs : List String)
    (s : LoaderState) (text dialect : String) (t rp tp mp cw : ℚ)
    (m : ModelHandle) (s1 : LoaderState) (tr : List String)
    (hws : ∀ c ∈ text.toList, c.isWhitespace)
    (hd : dialect ∈ validDialects)
    (hm : getModel fs s dialect = (.ok m, s1, tr)) :
    ∃ r, (generate_audio gen fs s text dialect t rp tp mp cw
        none none).1 = .ok r ∧
      r.genCall.text = "" := by
  rw [generate_audio_ok gen fs s text dialect t rp tp mp cw none none
    m s1 tr hd hm]
  exact ⟨_, rfl, preprocess_all_ws text hws⟩

/-! ## Text-normalization theorems -/

/-- Joining a single word inserts no separator. -/
theorem ic_single (w : List Char) : List.intercalate [' '] [w] = w := by
  simp [List.intercalate, List.intersperse]

/-- Joining at least two words inserts one space after the first. -/
theorem ic_cons2 (w r : List Char) (rs : List (List Char)) :
    List.intercalate [' '] (w :: r :: rs) =
      w ++ ' ' :: List.intercalate [' '] (r :: rs) := by
  simp [List.intercalate, List.intersperse]

/-- `squeezeSpaces` passes a non-space head through. -/
theorem sq_cons_nonspace (c : Char) (h : c ≠ ' ') (x : List Char) :
    squeezeSpaces (c :: x) = c :: squeezeSpaces x := by
  cases x with
  | nil => rfl
  | cons b r => simp [squeezeSpaces, h]

/-- `squeezeSpaces` drops one of two adjacent spaces. -/
theorem sq_space_space (r : List Char) :
    squeezeSpaces (' ' :: ' ' :: r) = squeezeSpaces (' ' :: r) := by
  simp [squeezeSpaces]

/-- `squeezeSpaces` keeps a space followed by a non-space. -/
theorem sq_space_nonspace (b : Char) (h : b ≠ ' ') (r : List Char) :
    squeezeSpaces (' ' :: b :: r) = ' ' :: squeezeSpaces (b :: r) := by
  simp [squeezeSpaces, h]

/-- Leading-trim drops a leading space. -/
theorem dl_cons_space (x : List Char) :
    dropLeadingSpaces (' ' :: x) = dropLeadingSpaces x := by
  simp [dropLeadingSpaces, List.dropWhile_cons]

/-- Leading-trim stops at a non-space head. -/
theorem dl_cons_nonspace (c : Char) (h : c ≠ ' ') (x : List Char) :
    dropLeadingSpaces (c :: x) = c :: x := by
  simp [dropLeadingSpaces, List.dropWhile_cons, h]

/-- Trailing-trim passes a non-space head through. -/
theorem dt_cons_nonspace (c : Char) (h : c ≠ ' ') (x : List Char) :
    dropTrailingSpaces (c :: x) = c :: dropTrailingSpaces x := by
  unfold dropTrailingSpaces
  rw [List.reverse_cons, List.dropWhile_append]
  by_cases he : (x.reverse.dropWhile (fun d => d == ' ')).isEmpty = true
  · rw [if_pos he]
    rw [List.isEmpty_iff] at he
    rw [he]
    simp [List.dropWhile_cons, h]
  · rw [if_neg he, List.reverse_append]
    rfl

/-- Trailing-trim passes any head through when something non-space
follows. -/
theorem dt_cons_of_ne_nil (a : Char) (x : List Char)
    (h : dropTrailingSpaces x ≠ []) :
    dropTrailingSpaces (a :: x) = a :: dropTrailingSpaces x := by
  unfold dropTrailingSpaces at h ⊢
  rw [List.reverse_cons, List.dropWhile_append]
  have he : ¬ (x.reverse.dropWhile (fun d => d == ' ')).isEmpty = true := by
    intro hemp
    rw [List.isEmpty_iff] at hemp
    rw [hemp] at h
    exact h rfl
  rw [if_neg he, List.reverse_append]
  rfl

/-- A leading space never survives squeeze-plus-leading-trim. -/
theorem dl_sq_space (x : List Char) :
    dropLeadingSpaces (squeezeSpaces (' ' :: x)) =
      dropLeadingSpaces (squeezeSpaces x) := by
  cases x with
  | nil => rfl
  | cons b r =>
    by_cases hb : b = ' '
    · subst hb
      rw [sq_space_space]
    · rw [sq_space_nonspace b hb r, dl_cons_space]

/-- Effect of a leading space on the squeeze-plus-trailing-trim pipeline:
it survives as a single space exactly when a word follows. -/
theorem dt_sq_space (x : List Char) :
    dropTrailingSpaces (squeezeSpaces (' ' :: x)) =
      if trimSpaces (squeezeSpaces x) = [] then []
      else ' ' :: trimSpaces (squeezeSpaces x) := by
  induction x with
  | nil =>
    have h0 : trimSpaces (squeezeSpaces ([] : List Char)) = [] := rfl
    rw [if_pos h0]
    rfl
  | cons b r ih =>
    by_cases hb : b = ' '
    · subst hb
      rw [sq_space_space, ih,
        show trimSpaces (squeezeSpaces (' ' :: r)) =
            trimSpaces (squeezeSpaces r) from
          congrArg dropTrailingSpaces (dl_sq_space r)]
    · have hsq : squeezeSpaces (b :: r) = b :: squeezeSpaces r :=
        sq_cons_nonspace b hb r
      have hrhs : trimSpaces (squeezeSpaces (b :: r)) =
          b :: dropTrailingSpaces (squeezeSpaces r) := by
        unfold trimSpaces
        rw [hsq, dl_cons_nonspace b hb, dt_cons_nonspace b hb]
      rw [if_neg (by rw [hrhs]; simp), hrhs]
      rw [sq_space_nonspace b hb r, hsq,
        dt_cons_of_ne_nil ' ' (b :: squeezeSpaces r)
          (by rw [dt_cons_nonspace b hb]; simp),
        dt_cons_nonspace b hb]

/-- Every word `str.split()` produces is nonempty. -/
theorem pySplitAux_ne_nil (l : List Char) :
    ∀ acc w, w ∈ pySplitAux l acc → w ≠ [] := by
  induction l with
  | nil =>
    intro acc w hw
    unfold pySplitAux at hw
    by_cases ha : acc = []
    · rw [if_pos ha] at hw
      cases hw
    · rw [if_neg ha] at hw
      rw [List.mem_singleton.mp hw]
      intro hrev
      exact ha (List.reverse_eq_nil_iff.mp hrev)
  | cons c t ih =>
    intro acc w hw
    unfold pySplitAux at hw
    by_cases hc : c.isWhitespace = true
    · rw [if_pos hc] at hw
      by_cases ha : acc = []
      · rw [if_pos ha] at hw
        exact ih [] w hw
      · rw [if_neg ha] at hw
        rcases List.mem_cons.mp hw with hw1 | hw2
        · rw [hw1]
          intro hrev
          exact ha (List.reverse_eq_nil_iff.mp hrev)
        · exact ih [] w hw2
    · rw [if_neg hc] at hw
      exact ih (c :: acc) w hw

/-- `wsToSpace` unfolding on a cons cell. -/
theorem wsToSpace_cons (c : Char) (t : List Char) :
    wsToSpace (c :: t) =
      (if c.isWhitespace then ' ' else c) :: wsToSpace t := rfl

/-- The main refinement: joining the words of `str.split()` with single
spaces equals the spec's replace-squeeze-trim pipeline; stated together
with the in-word generalization over the splitter's accumulator. -/
theorem pySplit_join_spec (l : List Char) :
    (List.intercalate [' '] (pySplitAux l []) =
      trimSpaces (squeezeSpaces (wsToSpace l))) ∧
    (∀ a acc, List.intercalate [' '] (pySplitAux l (a :: acc)) =
      (a :: acc).reverse ++ dropTrailingSpaces (squeezeSpaces (wsToSpace l))) := by
  induction l with
  | nil =>
    refine ⟨rfl, fun a acc => ?_⟩
    show List.intercalate [' '] [(a :: acc).reverse] =
      (a :: acc).reverse ++ dropTrailingSpaces (squeezeSpaces (wsToSpace []))
    rw [ic_single]
    exact (List.append_nil _).symm
  | cons c t ih =>
    obtain ⟨ihP, ihQ⟩ := ih
    by_cases hc : c.isWhitespace = true
    · have hm : wsToSpace (c :: t) = ' ' :: wsToSpace t := by
        rw [wsToSpace_cons, if_pos hc]
      constructor
      · have hl : pySplitAux (c :: t) [] = pySplitAux t [] := by
          simp [pySplitAux, hc]
        rw [hl, ihP, hm]
        exact (congrArg dropTrailingSpaces (dl_sq_space (wsToSpace t))).symm
      · intro a acc
        have hl : pySplitAux (c :: t) (a :: acc) =
            (a :: acc).reverse :: pySplitAux t [] := by
          simp [pySplitAux, hc]
        rw [hl, hm, dt_sq_space]
        cases hrest : pySplitAux t [] with
        | nil =>
          rw [ic_single]
          have hnil : trimSpaces (squeezeSpaces (wsToSpace t)) = [] := by
            rw [← ihP, hrest]
            rfl
          rw [if_pos hnil, List.append_nil]
        | cons r rs =>
          rw [ic_cons2]
          have hr : r ≠ [] :=
            pySplitAux_ne_nil t [] r (by rw [hrest]; exact List.mem_cons_self r rs)
          have hne : trimSpaces (squeezeSpaces (wsToSpace t)) ≠ [] := by
            rw [← ihP, hrest]
            cases rs with
            | nil =>
              rw [ic_single]
              exact hr
            | cons r2 rs2 =>
              rw [ic_cons2]
              intro happ
              exact hr (List.append_eq_nil.mp happ).1
          rw [if_neg hne, ← ihP, hrest]
    · have hcs : c ≠ ' ' := fun hce => hc (by rw [hce]; rfl)
      have hm : wsToSpace (c :: t) = c :: wsToSpace t := by
        rw [wsToSpace_cons, if_neg hc]
      constructor
      · have hl : pySplitAux (c :: t) [] = pySplitAux t [c] := by
          simp [pySplitAux, hc]
        rw [hl, ihQ c [], hm]
        unfold trimSpaces
        rw [sq_cons_nonspace c hcs, dl_cons_nonspace c hcs,
          dt_cons_nonspace c hcs]
        rfl
      · intro a acc
        have hl : pySplitAux (c :: t) (a :: acc) =
            pySplitAux t (c :: a :: acc) := by
          simp [pySplitAux, hc]
        rw [hl, ihQ c (a :: acc), hm]
        rw [sq_cons_nonspace c hcs, dt_cons_nonspace c hcs]
        rw [List.reverse_cons, List.append_assoc]
        rfl

/-- C6.  The Orchestrator's text normalization collapses every internal
whitespace run to a single space and trims leading/trailing whitespace,
and performs no other transformation: `preprocess_text` coincides with the
spec-worded replace-whitespace/squeeze-runs/trim pipeline on every input;
in particular `"مرحبا    بك"` normalizes to `"مرحبا بك"`. -/
theorem preprocess_text_is_collapse_and_trim :
    (∀ text : String, preprocess_text text = specNormalize text) ∧
    preprocess_text "مرحبا    بك" = "مرحبا بك" := by
  constructor
  · intro text
    exact congrArg String.mk (pySplit_join_spec text.toList).1
  · decide

/-! ## Finalizer theorems -/

/-- `ratAbs` agrees with the mathematical absolute value. -/
theorem ratAbs_eq_abs (x : ℚ) : ratAbs x = |x| := by
  unfold ratAbs
  split
  · exact (abs_of_neg (by assumption)).symm
  · exact (abs_of_nonneg (le_of_not_lt (by assumption))).symm

/-- `ratMax` agrees with the lattice `max`. -/
theorem ratMax_eq_max (a b : ℚ) : ratMax a b = max a b := by
  simp [ratMax, max_def]

/-- `maxAbs` unfolding on a cons cell. -/
theorem maxAbs_cons (x : ℚ) (t : List ℚ) :
    maxAbs (x :: t) = max |x| (maxAbs t) := by
  show ratMax (ratAbs x) (maxAbs t) = max |x| (maxAbs t)
  rw [ratAbs_eq_abs, ratMax_eq_max]

/-- The peak is nonnegative. -/
theorem maxAbs_nonneg (l : List ℚ) : 0 ≤ maxAbs l := by
  induction l with
  | nil => exact le_refl 0
  | cons x t ih => rw [maxAbs_cons]; exact le_trans ih (le_max_right _ _)

/-- Every sample's absolute value is bounded by the peak. -/
theorem abs_le_maxAbs (l : List ℚ) (x : ℚ) (hx : x ∈ l) : |x| ≤ maxAbs l := by
  induction l with
  | nil => cases hx
  | cons y t ih =>
    rw [maxAbs_cons]
    rcases List.mem_cons.mp hx with hxy | hxt
    · rw [hxy]; exact le_max_left _ _
    · exact le_trans (ih hxt) (le_max_right _ _)

/-- A nonzero peak is positive. -/
theorem maxAbs_pos (l : List ℚ) (h : maxAbs l ≠ 0) : 0 < maxAbs l :=
  lt_of_le_of_ne (maxAbs_nonneg l) (Ne.symm h)

/-- Dividing every sample by a positive constant divides the peak. -/
theorem maxAbs_map_div (l : List ℚ) (M : ℚ) (hM : 0 < M) :
    maxAbs (l.map (fun x => x / M)) = maxAbs l / M := by
  induction l with
  | nil => show (0 : ℚ) = 0 / M; rw [zero_div]
  | cons x t ih =>
    rw [List.map_cons, maxAbs_cons, maxAbs_cons, ih, abs_div, abs_of_pos hM,
      max_div_div_right (le_of_lt hM)]

/-- C7.  For every waveform whose maximum absolute sample is nonzero, the
Finalizer divides every sample by that maximum (no sample is NaN), the
normalized waveform's peak equals exactly 1, every normalized sample lies
in `[-1, 1]`, and relative sample ratios are preserved
(`(x/M)·y = (y/M)·x` for any two samples). -/
theorem peak_normalization_correct (l : List ℚ) (h : maxAbs l ≠ 0) :
    saveNormalize l = l.map (fun x => some (x / maxAbs l)) ∧
    maxAbs (l.map (fun x => x / maxAbs l)) = 1 ∧
    (∀ x ∈ l, -1 ≤ x / maxAbs l ∧ x / maxAbs l ≤ 1) ∧
    (∀ x ∈ l, ∀ y ∈ l, x / maxAbs l * y = y / maxAbs l * x) := by
  have hM : 0 < maxAbs l := maxAbs_pos l h
  refine ⟨?_, ?_, ?_, ?_⟩
  · simp [saveNormalize, fdiv, h]
  · rw [maxAbs_map_div l (maxAbs l) hM, div_self h]
  · intro x hx
    have habs : |x / maxAbs l| ≤ 1 := by
      rw [abs_div, abs_of_pos hM]
      exact (div_le_one hM).mpr (abs_le_maxAbs l x hx)
    exact abs_le.mp habs
  · intro x _ y _
    ring

/-- Witness for C7: the concrete waveform `[-2, 1]` has nonzero peak 2, and
the theorem's conclusions hold at it. -/
theorem peak_normalization_correct_witness :
    maxAbs [-2, 1] ≠ 0 ∧
    (saveNormalize [-2, 1] = [-2, 1].map (fun x => some (x / maxAbs [-2, 1])) ∧
     maxAbs ([-2, 1].map (fun x => x / maxAbs [-2, 1])) = 1 ∧
     (∀ x ∈ [-2, 1], -1 ≤ x / maxAbs [-2, 1] ∧ x / maxAbs [-2, 1] ≤ 1) ∧
     (∀ x ∈ [-2, 1], ∀ y ∈ [-2, 1],
       x / maxAbs [-2, 1] * y = y / maxAbs [-2, 1] * x)) :=
  ⟨by decide, peak_normalization_correct [-2, 1] (by decide)⟩

/-- C8 (requirement violated by the code): `_save_audio` applied to the
all-zero (silent) waveform `[0, 0, 0]` divides by
`torch.max(torch.abs(audio)) = 0`, so every output sample is the undefined
float `0/0` — NaN, modeled as `none`.  The output therefore consists
entirely of NaN samples, contradicting the requirement that the Finalizer
produce no NaN/undefined output on silence. -/
theorem silent_waveform_nan_defect :
    maxAbs [0, 0, 0] = 0 ∧ saveNormalize [0, 0, 0] = [none, none, none] := by
  decide

/-- Witness for C10: whitespace-only input `"  "` with a loadable Egyptian
model synthesizes successfully, the model being invoked on the empty
string. -/
theorem empty_text_not_validated_witness :
    ∃ r, (generate_audio (fun _ => [1]) ["models/egyptian"] initLoaderState
        "  " "egyptian" 1 2 1 1 1 none none).1 = .ok r ∧
      r.genCall.text = "" :=
  empty_text_not_validated (fun _ => [1]) ["models/egyptian"]
    initLoaderState "  " "egyptian" 1 2 1 1 1
    (loadedHandle initLoaderState "egyptian")
    (loadedState initLoaderState "egyptian")
    (modelPath "egyptian" :: componentFiles (modelPath "egyptian"))
    (by decide) (by decide) (by decide)

end GAVA
